import Mathlib

/-!
# iface-monitor-mqtt: a shallow embedding of `src/ifacemonitor.c`

The development follows the source file top to bottom:

* the counter reader `read_sysfs_uint64` (lines 37-59), over a model of the
  file it opens and of the C library function `strtoll`;
* the sampler thread `monitoring_thread` (lines 73-148);
* the reporter `monitor_interface` (lines 150-231) and the part of `main`
  that surrounds it (lines 316-336);
* the two threads running together over the shared globals of lines 33-35.

Machine integers are mathematical integers; `int64_t` subtraction wraps
modulo `2^64`.  The platform is LP64 Linux (`long` and `long long` are both
64 bits wide).
-/

namespace IfaceMonitor

/-! ## Constants -/

/-- Size of the local `buffer` of `read_sysfs_uint64` (line 30). -/
def MAX_UINT64_LENGTH : Nat := 24

/-- Largest `long long`. -/
def LLONG_MAX : Int := 2 ^ 63 - 1

/-- Smallest `long long`. -/
def LLONG_MIN : Int := -(2 ^ 63)

/-- Largest `long`; on LP64 it equals `LLONG_MAX`. -/
def LONG_MAX : Int := 2 ^ 63 - 1

/-- Linux value of the `errno` code `ERANGE`. -/
def ERANGE : Int := 34

/-! ## The C library pieces used by `read_sysfs_uint64` -/

/-- C `isspace` in the "C" locale: space, and the controls `\t \n \v \f \r`. -/
def isspace (c : Char) : Bool :=
  c.toNat == 32 || (decide (9 ≤ c.toNat) && decide (c.toNat ≤ 13))

/-- C `isdigit`. -/
def isdigit (c : Char) : Bool :=
  decide (48 ≤ c.toNat) && decide (c.toNat ≤ 57)

/-- Value of a decimal digit character. -/
def digit_val (c : Char) : Nat := c.toNat - 48

/-- Subject sequence of `strtoll`: what is left of the string after the
leading white space and an optional sign, with the sign found (`true` for
a minus sign). -/
def strtoll_subject (s : List Char) : Bool × List Char :=
  match s.dropWhile isspace with
  | [] => (false, [])
  | c :: r =>
    if c.toNat == 45 then (true, r)
    else if c.toNat == 43 then (false, r)
    else (false, c :: r)

/-- The decimal digits `strtoll` converts. -/
def strtoll_digits (s : List Char) : List Char :=
  (strtoll_subject s).2.takeWhile isdigit

/-- C library `strtoll(s, NULL, 10)` (ISO C 7.22.1.4) on a NUL-terminated
string given as the characters before the NUL.  The result is the returned
value and the value of `errno` after the call: with no digits the function
returns 0 and leaves `errno` as it was, a value out of the range of
`long long` is clamped to `LLONG_MAX` or `LLONG_MIN` with `errno = ERANGE`. -/
def strtoll (s : List Char) (errno : Int) : Int × Int :=
  let ds := strtoll_digits s
  if ds.isEmpty then (0, errno)
  else
    let mag : Nat := ds.foldl (fun acc c => 10 * acc + digit_val c) 0
    let v : Int := if (strtoll_subject s).1 then -(mag : Int) else (mag : Int)
    if v > LLONG_MAX then (LLONG_MAX, ERANGE)
    else if v < LLONG_MIN then (LLONG_MIN, ERANGE)
    else (v, errno)

/-- What `open` and `read` find at a counter path. -/
inductive File where
  /-- `open` returns -1. -/
  | unopenable
  /-- `open` succeeds and `read` returns a negative length. -/
  | unreadable
  /-- `open` succeeds and the file holds these bytes. -/
  | data (bytes : List Char)
  deriving DecidableEq, Repr

/-- Bytes delivered by `read(fd, buffer, count)` on a file holding `bytes`. -/
def sys_read (bytes : List Char) (count : Nat) : List Char := bytes.take count

/-- The C string that starts at `buffer[0]` once `buffer[read_len]` is NUL:
the bytes read, up to the first NUL among them. -/
def c_string (buffer : List Char) : List Char :=
  buffer.takeWhile (fun c => c.toNat != 0)

/-! ## `read_sysfs_uint64` (lines 37-59) -/

/-- Result of one call of `read_sysfs_uint64`. -/
inductive ReadResult where
  /-- The statement `buffer[read_len] = 0` (line 53) writes at `index`,
  which is not an index of `buffer`. -/
  | overrun (index : Nat)
  /-- The call returns `ok`; `value` is what it stored through the
  pointer `value`, if it stored anything. -/
  | returned (ok : Bool) (value : Option Int)
  deriving DecidableEq, Repr

/-- `read_sysfs_uint64(path, value)`: `f` is what the path holds and `errno`
the value of `errno` when `strtoll` is entered. -/
def read_sysfs_uint64 (f : File) (errno : Int) : ReadResult :=
  match f with
  | .unopenable => .returned false none
  | .unreadable => .returned false none
  | .data bytes =>
    let buffer := sys_read bytes MAX_UINT64_LENGTH
    let read_len := buffer.length
    if read_len < MAX_UINT64_LENGTH then
      let r := strtoll (c_string buffer) errno
      .returned (!(r.1 == LONG_MAX && r.2 == ERANGE)) (some r.1)
    else .overrun read_len

/-! ## Shared data (lines 33-35) -/

/-- The four statistics of an interface. -/
inductive Stat where
  | tx_bytes
  | rx_bytes
  | tx_packets
  | rx_packets
  deriving DecidableEq, Repr

/-- Four `int64_t` variables, one per statistic: a counter reading, the rate
snapshot `tx_bytes_1s, rx_bytes_1s, tx_packets_1s, rx_packets_1s`, or the
totals `tx_bytes_total, rx_bytes_total, tx_packets_total, rx_packets_total`. -/
structure Quad where
  tx_bytes : Int
  rx_bytes : Int
  tx_packets : Int
  rx_packets : Int
  deriving DecidableEq, Repr

/-- All four variables zero, the initial value of the globals. -/
def Quad.zero : Quad := ⟨0, 0, 0, 0⟩

/-- Read one of the four variables. -/
def Quad.get (q : Quad) : Stat → Int
  | .tx_bytes => q.tx_bytes
  | .rx_bytes => q.rx_bytes
  | .tx_packets => q.tx_packets
  | .rx_packets => q.rx_packets

/-- Assign one of the four variables. -/
def Quad.set (q : Quad) (s : Stat) (v : Int) : Quad :=
  match s with
  | .tx_bytes => { q with tx_bytes := v }
  | .rx_bytes => { q with rx_bytes := v }
  | .tx_packets => { q with tx_packets := v }
  | .rx_packets => { q with rx_packets := v }

/-- Reduction of a mathematical integer to the `int64_t` that has the same
low 64 bits. -/
def wrap64 (x : Int) : Int := (x + 2 ^ 63) % 2 ^ 64 - 2 ^ 63

/-- Subtraction of two `int64_t` values, `a - b` in the source. -/
def sub64 (a b : Int) : Int := wrap64 (a - b)

/-- Field by field `a - b`. -/
def Quad.sub (a b : Quad) : Quad :=
  ⟨sub64 a.tx_bytes b.tx_bytes, sub64 a.rx_bytes b.rx_bytes,
   sub64 a.tx_packets b.tx_packets, sub64 a.rx_packets b.rx_packets⟩

/-! ## Observable actions -/

/-- Actions of the program that the properties below talk about. -/
inductive Event where
  /-- "Error: Monitoring error on interface" (line 91). -/
  | err_monitoring
  /-- "Status: Monitoring interface ... started" (line 95). -/
  | status_started
  /-- "Error: Failed to read values from sysfs (n)" (lines 100, 109, 118, 138). -/
  | err_sysfs (n : Nat)
  /-- A call `sleep_f(seconds)`. -/
  | sleep (seconds : Int)
  /-- The call `atomic_store` on one slot of the rate snapshot. -/
  | store (slot : Stat) (value : Int)
  /-- The call `atomic_load` on one slot of the rate snapshot. -/
  | load (slot : Stat) (value : Int)
  | mosquitto_new
  /-- "Error: Failed to create a new MQTT client." (line 162). -/
  | err_new_client
  /-- "Status: Connecting to broker" (line 166). -/
  | status_connecting
  | mosquitto_connect
  /-- "Status: Connected to broker." (line 169). -/
  | status_connected
  /-- "Error: Failed to connect to the broker." (line 172). -/
  | err_connect
  | mosquitto_disconnect
  | mosquitto_destroy
  | pthread_create
  /-- "Error: Failed to create monitoring thread." (line 184). -/
  | err_thread
  /-- The call `mosquitto_publish`; the payload is formatted from the four
  values loaded (as rx_bytes, tx_bytes, rx_packets, tx_packets). -/
  | mosquitto_publish (payload : Quad)
  /-- "Error: Failed to publish message" (line 209). -/
  | err_publish
  /-- "Status: Published message" (line 213). -/
  | status_published
  /-- "Data: ..." (line 217). -/
  | data (payload : Quad)
  | pthread_join
  /-- "Warning: MQTT publishing is not available" (line 317). -/
  | warning_mqtt
  /-- The statistics block of lines 327-336, printed from the four totals. -/
  | statistics (total : Quad)
  deriving DecidableEq, Repr

/-! ## The counter source seen by the sampler -/

/-- What one call of `read_sysfs_uint64` meets: the file at the path and
the value of `errno` when `strtoll` is entered. -/
structure SysfsCall where
  file : File
  errno : Int
  deriving DecidableEq, Repr

/-- The counter source over a run of the sampler.  `access s` tells whether
`access(path, F_OK)` succeeds at startup for statistic `s`; `call n s` is what
the read of statistic `s` meets in the `n`-th group of four reads the thread
makes (the baseline group is number 0). -/
structure Sysfs where
  access : Stat → Bool
  call : Nat → Stat → SysfsCall

/-- Reads of `read_counters`, in source order, continuing with the
statistics `stats`. -/
def read_counters_from (c : Stat → SysfsCall) : List Stat → Quad → Option (Bool × Quad)
  | [], dst => some (true, dst)
  | s :: rest, dst =>
    match read_sysfs_uint64 (c s).file (c s).errno with
    | .overrun _ => none
    | .returned ok value =>
      let dst1 := match value with
        | some v => dst.set s v
        | none => dst
      if ok then read_counters_from c rest dst1 else some (false, dst1)

/-- The condition
`!read_sysfs_uint64(tx_bytes_path, &dst.tx_bytes) || !read_sysfs_uint64(rx_bytes_path, ..) ||
 !read_sysfs_uint64(tx_packets_path, ..) || !read_sysfs_uint64(rx_packets_path, ..)`
of lines 97, 106, 115 and 135, evaluated left to right with short circuit.
The result is `none` when a call overruns its buffer; otherwise whether all
four calls returned true, and the destination variables after the calls. -/
def read_counters (c : Stat → SysfsCall) (dst : Quad) : Option (Bool × Quad) :=
  read_counters_from c [.tx_bytes, .rx_bytes, .tx_packets, .rx_packets] dst

/-! ## `monitoring_thread` (lines 73-148) -/

/-- Variables of the sampler thread, with two counters that exist only in
the model: `round`, the number of groups of four reads started so far, and
`checks`, the number of times the condition of the loop at line 104 has been
evaluated. -/
structure Sampler where
  /-- The globals `tx_bytes_1s, rx_bytes_1s, tx_packets_1s, rx_packets_1s`. -/
  rate : Quad
  /-- The globals `tx_bytes_total, rx_bytes_total, tx_packets_total, rx_packets_total`. -/
  total : Quad
  /-- The locals `tx_bytes_last, rx_bytes_last, tx_packets_last, rx_packets_last`. -/
  last : Quad
  /-- The locals `tx_bytes, rx_bytes, tx_packets, rx_packets`. -/
  cur : Quad
  round : Nat
  checks : Nat
  log : List Event
  deriving DecidableEq, Repr

/-- State of the thread when it is created: the globals are zero, the
locals hold whatever the stack holds. -/
def Sampler.init (last cur : Quad) : Sampler :=
  { rate := Quad.zero, total := Quad.zero, last := last, cur := cur,
    round := 0, checks := 0, log := [] }

/-- The four `atomic_store` calls of lines 128-132, in source order. -/
def snapshot_stores (d : Quad) : List (Stat × Int) :=
  [(.tx_bytes, d.tx_bytes), (.tx_packets, d.tx_packets),
   (.rx_bytes, d.rx_bytes), (.rx_packets, d.rx_packets)]

/-- Effect of a sequence of stores on the rate snapshot. -/
def apply_stores (rate : Quad) (stores : List (Stat × Int)) : Quad :=
  stores.foldl (fun q sv => q.set sv.1 sv.2) rate

/-- Result of one pass through the body of the loop at line 104. -/
inductive LoopStep where
  /-- The body ran to its end; the loop condition is evaluated next. -/
  | next (s : Sampler)
  /-- The body executed `break`. -/
  | leave (s : Sampler)
  /-- A read overran its buffer. -/
  | undefined
  deriving DecidableEq, Repr

/-- Body of the loop of `monitoring_thread` (lines 105-133). -/
def sampling_iteration (env : Sysfs) (s : Sampler) : LoopStep :=
  match read_counters (env.call s.round) s.last with
  | none => .undefined
  | some (false, last) =>
    .leave { s with last := last, round := s.round + 1, log := s.log ++ [.err_sysfs 1] }
  | some (true, last) =>
    match read_counters (env.call (s.round + 1)) s.cur with
    | none => .undefined
    | some (false, cur) =>
      .leave { s with last := last, cur := cur, round := s.round + 2,
                      log := s.log ++ [.sleep 1, .err_sysfs 2] }
    | some (true, cur) =>
      let delta := cur.sub last
      .next { s with last := last, cur := delta, round := s.round + 2,
                     rate := apply_stores s.rate (snapshot_stores delta),
                     log := s.log ++ [.sleep 1] ++
                       (snapshot_stores delta).map (fun sv => Event.store sv.1 sv.2) }

/-- Result of running a loop with a bound on the number of passes. -/
inductive Outcome (α : Type) where
  /-- The bound was reached with the loop still running. -/
  | timeout
  /-- A read overran its buffer. -/
  | undefined
  /-- The code ran to its end. -/
  | done (a : α)
  deriving DecidableEq, Repr

/-- The loop `while (!interrupted) { ... }` of lines 104-133.  `interrupted n`
is the value of the global `interrupted` found by evaluation number `n` of
the loop condition; `fuel` bounds the number of evaluations. -/
def sampling_loop (env : Sysfs) (interrupted : Nat → Bool) : Nat → Sampler → Outcome Sampler
  | 0, _ => .timeout
  | fuel + 1, s =>
    let s1 := { s with checks := s.checks + 1 }
    if interrupted s.checks then .done s1
    else
      match sampling_iteration env s1 with
      | .next s2 => sampling_loop env interrupted fuel s2
      | .leave s2 => .done s2
      | .undefined => .undefined

/-- How `monitoring_thread` ended. -/
inductive Exit where
  /-- `pthread_exit` at line 92: a counter path is missing. -/
  | monitoring_error
  /-- `pthread_exit` at line 101: the baseline read failed. -/
  | baseline_failed
  /-- `pthread_exit` at line 139: the last read failed. -/
  | final_failed
  /-- `pthread_exit` at line 147: the totals were computed. -/
  | finalized
  deriving DecidableEq, Repr

/-- Lines 88-102: the check of the four paths and the baseline read into the
totals.  The result is `none` on an overrun; otherwise the state, with the
way the thread exited if it did not reach the loop. -/
def sampler_start (env : Sysfs) (s : Sampler) : Option (Option Exit × Sampler) :=
  if !env.access .tx_bytes || !env.access .rx_bytes ||
     !env.access .tx_packets || !env.access .rx_packets then
    some (some .monitoring_error, { s with log := s.log ++ [.err_monitoring] })
  else
    match read_counters (env.call s.round) s.total with
    | none => none
    | some (false, total) =>
      some (some .baseline_failed,
            { s with total := total, round := s.round + 1,
                     log := s.log ++ [.status_started, .err_sysfs 0] })
    | some (true, total) =>
      some (none, { s with total := total, round := s.round + 1,
                           log := s.log ++ [.status_started] })

/-- Lines 135-147: the last read and the totals. -/
def sampler_finish (env : Sysfs) (s : Sampler) : Option (Exit × Sampler) :=
  match read_counters (env.call s.round) s.last with
  | none => none
  | some (false, last) =>
    some (.final_failed, { s with last := last, round := s.round + 1,
                                  log := s.log ++ [.err_sysfs 2] })
  | some (true, last) =>
    some (.finalized, { s with last := last, round := s.round + 1,
                               total := last.sub s.total })

/-- The thread function `monitoring_thread` run on the counter source `env`,
with the values `interrupted` of the shutdown flag at the successive
evaluations of the loop condition and at most `fuel` evaluations. -/
def monitoring_thread (env : Sysfs) (interrupted : Nat → Bool) (fuel : Nat)
    (s : Sampler) : Outcome (Exit × Sampler) :=
  match sampler_start env s with
  | none => .undefined
  | some (some e, s0) => .done (e, s0)
  | some (none, s0) =>
    match sampling_loop env interrupted fuel s0 with
    | .timeout => .timeout
    | .undefined => .undefined
    | .done s1 =>
      match sampler_finish env s1 with
      | none => .undefined
      | some r => .done r

/-! ## `monitor_interface` (lines 150-231) and `main` (lines 316-336) -/

/-- The arguments of `monitor_interface` that decide what the reporter
does; a null pointer is `none`. -/
structure Config where
  broker_address : Option String
  broker_port : Int
  broker_topic : Option String
  sampling_delay : Int
  deriving DecidableEq, Repr

/-- The constant `broker_available` of line 152. -/
def broker_available (c : Config) : Bool :=
  c.broker_address.isSome && decide (c.broker_port > 0) &&
    decide (c.broker_port < 65535) && c.broker_topic.isSome

/-- Condition of the warning of `main` (line 316). -/
def main_warns (c : Config) : Bool :=
  c.broker_address.isNone || decide (c.broker_port < 0) || decide (c.broker_port > 65535)

/-- Results of the library calls of `monitor_interface`. -/
structure Calls where
  /-- `mosquitto_new` returns a client. -/
  new_ok : Bool
  /-- `mosquitto_connect` returns `MOSQ_ERR_SUCCESS`. -/
  connect_ok : Bool
  /-- `pthread_create` returns 0. -/
  create_ok : Bool
  /-- The call of `mosquitto_publish` in cycle `n` (counted from 0) returns
  `MOSQ_ERR_SUCCESS`. -/
  publish_ok : Nat → Bool

/-- Progress of the reporter: `checks` counts the evaluations of the loop
condition at line 190, `cycles` the passes through the loop body that have
begun. -/
structure Reporter where
  checks : Nat
  cycles : Nat
  log : List Event
  deriving DecidableEq, Repr

/-- The reporter when `monitor_interface` is entered. -/
def Reporter.init : Reporter := { checks := 0, cycles := 0, log := [] }

/-- The four `atomic_load` calls of lines 192-195, in source order. -/
def snapshot_loads : List Stat := [.rx_bytes, .tx_bytes, .rx_packets, .tx_packets]

/-- Lines 152-188: the connection to the broker and the creation of the
sampler thread.  The boolean tells whether the function goes on to its loop
(otherwise it has returned). -/
def reporter_start (c : Config) (calls : Calls) (r : Reporter) : Bool × Reporter :=
  if broker_available c then
    if !calls.new_ok then
      (false, { r with log := r.log ++ [.mosquitto_new, .err_new_client] })
    else if !calls.connect_ok then
      (false, { r with log := r.log ++ [.mosquitto_new, .status_connecting, .mosquitto_connect,
                                        .err_connect, .mosquitto_destroy] })
    else if !calls.create_ok then
      (false, { r with log := r.log ++ [.mosquitto_new, .status_connecting, .mosquitto_connect,
                                        .status_connected, .pthread_create, .err_thread,
                                        .mosquitto_disconnect, .mosquitto_destroy] })
    else
      (true, { r with log := r.log ++ [.mosquitto_new, .status_connecting, .mosquitto_connect,
                                       .status_connected, .pthread_create] })
  else if !calls.create_ok then
    (false, { r with log := r.log ++ [.pthread_create, .err_thread,
                                      .mosquitto_disconnect, .mosquitto_destroy] })
  else
    (true, { r with log := r.log ++ [.pthread_create] })

/-- Result of one pass through the body of the loop at line 190. -/
inductive CycleStep where
  /-- The body ran to its end. -/
  | next (r : Reporter)
  /-- The body executed `break`. -/
  | leave (r : Reporter)
  deriving DecidableEq, Repr

/-- Body of the loop of `monitor_interface` (lines 191-221).  `loaded` holds
the values the four atomic loads return, `publish_ok` the result of the
publish call if one is made. -/
def reporter_cycle (c : Config) (publish_ok : Bool) (loaded : Quad) (r : Reporter) : CycleStep :=
  let loads := snapshot_loads.map (fun s => Event.load s (loaded.get s))
  if broker_available c then
    if publish_ok then
      .next { r with cycles := r.cycles + 1,
                     log := r.log ++ loads ++ [.mosquitto_publish loaded, .status_published,
                                               .data loaded, .sleep c.sampling_delay] }
    else
      .leave { r with cycles := r.cycles + 1,
                      log := r.log ++ loads ++ [.mosquitto_publish loaded, .err_publish] }
  else
    .next { r with cycles := r.cycles + 1,
                   log := r.log ++ loads ++ [.data loaded, .sleep c.sampling_delay] }

/-- Lines 223-227: the connection is closed if one was opened. -/
def reporter_close (c : Config) (r : Reporter) : Reporter :=
  if broker_available c then
    { r with log := r.log ++ [.mosquitto_disconnect, .mosquitto_destroy] }
  else r

/-- The loop `while (!interrupted) { ... }` of lines 190-221.  `interrupted n`
is the value of the flag at evaluation `n` of the loop condition, `loaded n`
the four values loaded in cycle `n`; `fuel` bounds the number of evaluations. -/
def reporter_loop (c : Config) (calls : Calls) (interrupted : Nat → Bool) (loaded : Nat → Quad) :
    Nat → Reporter → Outcome Reporter
  | 0, _ => .timeout
  | fuel + 1, r =>
    let r1 := { r with checks := r.checks + 1 }
    if interrupted r.checks then .done r1
    else
      match reporter_cycle c (calls.publish_ok r.cycles) (loaded r.cycles) r1 with
      | .next r2 => reporter_loop c calls interrupted loaded fuel r2
      | .leave r2 => .done r2

/-- The function `monitor_interface`, up to its return; `pthread_join` is
taken to return (the sampler thread has ended). -/
def monitor_interface (c : Config) (calls : Calls) (interrupted : Nat → Bool)
    (loaded : Nat → Quad) (fuel : Nat) (r : Reporter) : Outcome Reporter :=
  match reporter_start c calls r with
  | (false, r0) => .done r0
  | (true, r0) =>
    match reporter_loop c calls interrupted loaded fuel r0 with
    | .timeout => .timeout
    | .undefined => .undefined
    | .done r1 =>
      let r2 := reporter_close c r1
      .done { r2 with log := r2.log ++ [.pthread_join] }

/-- Lines 316-336 of `main`: the warning, the call of `monitor_interface`
and the statistics block.  `total` holds the values of the four total
globals when `monitor_interface` has returned. -/
def main (c : Config) (calls : Calls) (interrupted : Nat → Bool) (loaded : Nat → Quad)
    (fuel : Nat) (total : Quad) : Outcome (List Event) :=
  let warned : List Event := if main_warns c then [.warning_mqtt] else []
  match monitor_interface c calls interrupted loaded fuel { Reporter.init with log := warned } with
  | .timeout => .timeout
  | .undefined => .undefined
  | .done r => .done (r.log ++ [.statistics total])

/-- The handler `interrupt_set` (lines 247-251) applied to the flag. -/
def interrupt_set (_interrupted : Bool) : Bool := true

/-! ## The two threads together -/

/-- Where the sampler thread stands. -/
inductive SamplerPC where
  /-- `pthread_create` has not been called. -/
  | not_created
  /-- The thread exists and has not run yet. -/
  | created
  /-- The thread is at the loop condition of line 104. -/
  | sampling
  /-- The thread has called `pthread_exit`. -/
  | exited (e : Exit)
  /-- A read overran its buffer. -/
  | undefined
  deriving DecidableEq, Repr

/-- Where `monitor_interface` stands. -/
inductive ReporterPC where
  /-- At the entry of the function. -/
  | startup
  /-- At the loop condition of line 190. -/
  | reporting
  /-- In `pthread_join` (line 229). -/
  | joining
  /-- The function has returned. -/
  | returned
  deriving DecidableEq, Repr

/-- The process: the flag `interrupted` (line 34) and the two threads.  The
rate snapshot and the totals are fields of `sampler`, their only writer. -/
structure System where
  interrupted : Bool
  sampler_pc : SamplerPC
  sampler : Sampler
  reporter_pc : ReporterPC
  reporter : Reporter
  deriving DecidableEq, Repr

/-- The process when `monitor_interface` is entered. -/
def System.init (last cur : Quad) : System :=
  { interrupted := false, sampler_pc := .not_created, sampler := Sampler.init last cur,
    reporter_pc := .startup, reporter := Reporter.init }

/-- Who moves next: one of the two threads, or the delivery of SIGINT. -/
inductive Actor where
  | sampler
  | reporter
  | sigint
  deriving DecidableEq, Repr

/-- The sampler leaves its loop: lines 135-147. -/
def System.sampler_leaves (env : Sysfs) (σ : System) (s : Sampler) : System :=
  match sampler_finish env s with
  | none => { σ with sampler_pc := .undefined, sampler := s }
  | some (e, s1) => { σ with sampler_pc := .exited e, sampler := s1 }

/-- One move of the process.  A thread at its loop condition evaluates it on
the shared flag and then runs the loop body once, or leaves the loop and runs
the code after it. -/
def System.step (c : Config) (calls : Calls) (env : Sysfs) (σ : System) : Actor → System
  | .sigint => { σ with interrupted := interrupt_set σ.interrupted }
  | .sampler =>
    match σ.sampler_pc with
    | .created =>
      match sampler_start env σ.sampler with
      | none => { σ with sampler_pc := .undefined }
      | some (some e, s) => { σ with sampler_pc := .exited e, sampler := s }
      | some (none, s) => { σ with sampler_pc := .sampling, sampler := s }
    | .sampling =>
      let s1 := { σ.sampler with checks := σ.sampler.checks + 1 }
      if σ.interrupted then σ.sampler_leaves env s1
      else
        match sampling_iteration env s1 with
        | .next s2 => { σ with sampler := s2 }
        | .leave s2 => σ.sampler_leaves env s2
        | .undefined => { σ with sampler_pc := .undefined, sampler := s1 }
    | _ => σ
  | .reporter =>
    match σ.reporter_pc with
    | .startup =>
      match reporter_start c calls σ.reporter with
      | (false, r) => { σ with reporter_pc := .returned, reporter := r }
      | (true, r) => { σ with reporter_pc := .reporting, reporter := r, sampler_pc := .created }
    | .reporting =>
      let r1 := { σ.reporter with checks := σ.reporter.checks + 1 }
      if σ.interrupted then { σ with reporter_pc := .joining, reporter := reporter_close c r1 }
      else
        match reporter_cycle c (calls.publish_ok σ.reporter.cycles) σ.sampler.rate r1 with
        | .next r2 => { σ with reporter := r2 }
        | .leave r2 => { σ with reporter_pc := .joining, reporter := reporter_close c r2 }
    | .joining =>
      match σ.sampler_pc with
      | .exited _ =>
        { σ with reporter_pc := .returned,
                 reporter := { σ.reporter with log := σ.reporter.log ++ [.pthread_join] } }
      | _ => σ
    | .returned => σ

/-- The process after the moves of a schedule. -/
def System.run (c : Config) (calls : Calls) (env : Sysfs) (sched : List Actor) (σ : System) :
    System :=
  sched.foldl (System.step c calls env) σ

/-! ## The atomic accesses of one sampling iteration and one reporter cycle -/

/-- An atomic access to a slot of the rate snapshot. -/
inductive Op where
  | store (slot : Stat) (value : Int)
  | load (slot : Stat)
  deriving DecidableEq, Repr

/-- The accesses of the sampler in one iteration that stores `d`. -/
def sampler_ops (d : Quad) : List Op :=
  (snapshot_stores d).map (fun sv => Op.store sv.1 sv.2)

/-- The accesses of the reporter in one cycle. -/
def reporter_ops : List Op := snapshot_loads.map Op.load

/-- Whether `zs` is an interleaving of `xs` and `ys`: it holds the elements
of both, each list in its own order. -/
def is_interleaving : List Op → List Op → List Op → Bool
  | xs, ys, [] => xs.isEmpty && ys.isEmpty
  | xs, ys, z :: zs =>
    (match xs with
      | [] => false
      | x :: xs1 => x == z && is_interleaving xs1 ys zs) ||
    (match ys with
      | [] => false
      | y :: ys1 => y == z && is_interleaving xs ys1 zs)

/-- Accesses executed one after the other (the single total order of
sequentially consistent atomics) on the snapshot `m`: the values the loads
return, in order. -/
def run_ops : List Op → Quad → List (Stat × Int)
  | [], _ => []
  | .store s v :: ops, m => run_ops ops (m.set s v)
  | .load s :: ops, m => (s, m.get s) :: run_ops ops m

/-! ## Concrete inputs used below -/

/-- Four counter files with the given contents, read with `errno = 0`. -/
def counter_files (tx_bytes rx_bytes tx_packets rx_packets : String) : Stat → SysfsCall
  | .tx_bytes => ⟨.data tx_bytes.toList, 0⟩
  | .rx_bytes => ⟨.data rx_bytes.toList, 0⟩
  | .tx_packets => ⟨.data tx_packets.toList, 0⟩
  | .rx_packets => ⟨.data rx_packets.toList, 0⟩

/-- The counters of the end-to-end scenario: (1000, 2000, 10, 20) at the
first group of reads, (1500, 2600, 15, 28) from then on. -/
def scenario_env : Sysfs where
  access := fun _ => true
  call := fun n =>
    if n = 0 then counter_files "1000\n" "2000\n" "10\n" "20\n"
    else counter_files "1500\n" "2600\n" "15\n" "28\n"

/-- Counters that read (1000, 2000, 10, 20) at the baseline and cannot be
opened afterwards (the interface has gone). -/
def vanishing_env : Sysfs where
  access := fun _ => true
  call := fun n =>
    if n = 0 then counter_files "1000\n" "2000\n" "10\n" "20\n"
    else fun _ => ⟨.unopenable, 0⟩

/-- An interface whose `rx_packets` path does not exist. -/
def missing_env : Sysfs where
  access := fun s => decide (s ≠ .rx_packets)
  call := fun _ => counter_files "1000\n" "2000\n" "10\n" "20\n"

/-- The group of four reads delivers the reading `q`: all four calls return
true.  (The destination variables are all overwritten then, so their
former values do not matter.) -/
def reading (c : Stat → SysfsCall) : Option Quad :=
  match read_counters c Quad.zero with
  | some (true, q) => some q
  | _ => none

/-- One of the four calls of the group returns false. -/
def read_fails (c : Stat → SysfsCall) : Bool :=
  match read_counters c Quad.zero with
  | some (false, _) => true
  | _ => false

/-- The value a call of `read_sysfs_uint64` stores (0 if it stores none). -/
def stored_value (c : SysfsCall) : Int :=
  match read_sysfs_uint64 c.file c.errno with
  | .returned _ (some v) => v
  | _ => 0

/-- The call of `read_sysfs_uint64` returns true. -/
def read_ok (c : SysfsCall) : Bool :=
  match read_sysfs_uint64 c.file c.errno with
  | .returned true _ => true
  | _ => false

/-- How the thread ended and the four totals it left, the values the
statistics block of `main` prints. -/
def final_totals (o : Outcome (Exit × Sampler)) : Option (Exit × Quad) :=
  match o with
  | .done (e, s) => some (e, s.total)
  | _ => none

/-- The event is a call of `mosquitto_publish`. -/
def is_publish : Event → Bool
  | .mosquitto_publish _ => true
  | _ => false

/-- A broker at localhost:1883 with topic "net_monitor". -/
def broker_config : Config :=
  { broker_address := some "localhost", broker_port := 1883,
    broker_topic := some "net_monitor", sampling_delay := 1 }

/-- Library calls that all succeed, except that `mosquitto_publish` fails
from cycle `k` on (cycles counted from 1). -/
def publish_fails_at (k : Nat) : Calls :=
  { new_ok := true, connect_ok := true, create_ok := true,
    publish_ok := fun n => decide (n + 1 < k) }

/-- A run without any SIGINT in which the first publish call fails: the
reporter starts, the sampler thread starts, the reporter runs its first
cycle, the sampler makes three passes through its loop, and the reporter
moves again. -/
def publish_failure_run : System :=
  System.run broker_config (publish_fails_at 1) scenario_env
    [.reporter, .sampler, .reporter, .sampler, .sampler, .sampler, .reporter]
    (System.init Quad.zero Quad.zero)

/-- The process when both threads are at their loop conditions for the
first time, in the scenario where the first publish call fails. -/
def both_looping : System :=
  System.run broker_config (publish_fails_at 1) scenario_env [.reporter, .sampler]
    (System.init Quad.zero Quad.zero)

/-- The rate snapshot of generation `g`: the initial zeros for `g = 0`, the
deltas `deltas g` stored by sampling iteration number `g` for `g ≥ 1`. -/
def generation (deltas : Nat → Quad) (g : Nat) : Quad :=
  if g = 0 then Quad.zero else deltas g

/-- Deltas that differ from one sampling iteration to the next. -/
def rising_deltas (g : Nat) : Quad := ⟨500 * g, 600 * g, 5 * g, 8 * g⟩

/-- One interleaving of the stores of an iteration that stores
`rising_deltas 1` with the loads of a reporter cycle. -/
def mixed_accesses : List Op :=
  [.store .tx_bytes 500, .load .rx_bytes, .load .tx_bytes, .store .tx_packets 5,
   .store .rx_bytes 600, .load .rx_packets, .store .rx_packets 8, .load .tx_packets]

/-- The atomic stores of the `k` sampling iterations that follow iteration
`g`, in the order the sampler thread makes them: those of iteration `g + 1`,
then those of iteration `g + 2`, up to iteration `g + k`. -/
def run_stores (deltas : Nat → Quad) : Nat → Nat → List Op
  | _, 0 => []
  | g, k + 1 => sampler_ops (deltas (g + 1)) ++ run_stores deltas (g + 1) k

/-- A reporter cycle that is held after its first load while the sampler
completes its first two iterations (storing `rising_deltas 1` and then
`rising_deltas 2`), and makes its other three loads afterwards. -/
def held_accesses : List Op :=
  [.load .rx_bytes,
   .store .tx_bytes 500, .store .tx_packets 5, .store .rx_bytes 600, .store .rx_packets 8,
   .store .tx_bytes 1000, .store .tx_packets 10, .store .rx_bytes 1200, .store .rx_packets 16,
   .load .tx_bytes, .load .rx_packets, .load .tx_packets]

/-! ## Properties of `read_sysfs_uint64` -/

theorem sys_read_short (bytes : List Char) (h : bytes.length < MAX_UINT64_LENGTH) :
    sys_read bytes MAX_UINT64_LENGTH = bytes := by
  unfold sys_read
  exact List.take_of_length_le (Nat.le_of_lt h)

theorem read_sysfs_uint64_long (bytes : List Char) (errno : Int)
    (h : MAX_UINT64_LENGTH ≤ bytes.length) :
    read_sysfs_uint64 (.data bytes) errno = .overrun MAX_UINT64_LENGTH := by
  have hl : (sys_read bytes MAX_UINT64_LENGTH).length = MAX_UINT64_LENGTH := by
    unfold sys_read
    simp [List.length_take, h]
  simp [read_sysfs_uint64, hl]

/-- C10: the claim asks that the index `read_len` of the NUL written at line
53 is always below 24.  On a counter file of 24 bytes `read` fills the whole
buffer, `read_len` is 24 and the write lands one past the end of `buffer`;
the same happens for every longer file. -/
theorem read_sysfs_uint64_overrun :
    read_sysfs_uint64 (.data "000000000000000000000001".toList) 0 = .overrun 24 ∧
    ¬ (24 < MAX_UINT64_LENGTH) ∧
    ∀ (bytes : List Char) (errno : Int), MAX_UINT64_LENGTH ≤ bytes.length →
      read_sysfs_uint64 (.data bytes) errno = .overrun MAX_UINT64_LENGTH := by
  refine ⟨by decide, by decide, ?_⟩
  intro bytes errno h
  exact read_sysfs_uint64_long bytes errno h

/-- C3 fails as stated: on the contents "abc" and on an empty file
`read_sysfs_uint64` returns true, having stored 0, whereas it returns false
for a file that cannot be opened or read. -/
theorem read_sysfs_uint64_abc_succeeds :
    read_sysfs_uint64 (.data "abc".toList) 0 = .returned true (some 0) ∧
    read_sysfs_uint64 (.data "".toList) 0 = .returned true (some 0) ∧
    read_sysfs_uint64 .unopenable 0 = .returned false none ∧
    read_sysfs_uint64 .unreadable 0 = .returned false none := by
  decide

/-- C3 as amended: a counter file of fewer than 24 bytes in which `strtoll`
finds no decimal digit (after the leading white space and an optional sign)
is read as 0 with result true, whatever `errno` holds; a file that cannot be
opened or read gives false, with nothing stored, whatever `errno` holds; and
over all files and all values of `errno` the function returns false exactly
for a file that cannot be opened, a file that cannot be read, and a file of
fewer than 24 bytes on which `strtoll` returns `LONG_MAX` and leaves
`errno == ERANGE`. -/
theorem read_sysfs_uint64_no_digits (bytes : List Char) (errno : Int)
    (hlen : bytes.length < MAX_UINT64_LENGTH)
    (hnum : strtoll_digits (c_string bytes) = []) :
    read_sysfs_uint64 (.data bytes) errno = .returned true (some 0) ∧
    (∀ e : Int, read_sysfs_uint64 .unopenable e = .returned false none ∧
      read_sysfs_uint64 .unreadable e = .returned false none) ∧
    ∀ (f : File) (e : Int),
      (∃ v, read_sysfs_uint64 f e = .returned false v) ↔
        (f = .unopenable ∨ f = .unreadable ∨
          ∃ bs, f = .data bs ∧ bs.length < MAX_UINT64_LENGTH ∧
            (strtoll (c_string bs) e).1 = LONG_MAX ∧ (strtoll (c_string bs) e).2 = ERANGE) := by
  refine ⟨?_, fun e => ⟨rfl, rfl⟩, ?_⟩
  · have hs := sys_read_short bytes hlen
    simp only [read_sysfs_uint64, hs, hlen, if_true]
    simp [strtoll, hnum, LONG_MAX]
  · intro f e
    cases f with
    | unopenable => exact ⟨fun _ => Or.inl rfl, fun _ => ⟨none, rfl⟩⟩
    | unreadable => exact ⟨fun _ => Or.inr (Or.inl rfl), fun _ => ⟨none, rfl⟩⟩
    | data bs =>
      by_cases hl : bs.length < MAX_UINT64_LENGTH
      · have hs := sys_read_short bs hl
        have hrd : read_sysfs_uint64 (.data bs) e =
            .returned (!((strtoll (c_string bs) e).1 == LONG_MAX &&
              (strtoll (c_string bs) e).2 == ERANGE)) (some (strtoll (c_string bs) e).1) := by
          simp only [read_sysfs_uint64, hs, hl, if_true]
        constructor
        · rintro ⟨v, h⟩
          rw [hrd] at h
          simp only [ReadResult.returned.injEq, Bool.not_eq_false', Bool.and_eq_true,
            beq_iff_eq] at h
          exact Or.inr (Or.inr ⟨bs, rfl, hl, h.1⟩)
        · rintro (h | h | ⟨bs1, hb, _, h1, h2⟩)
          · exact absurd h (by simp)
          · exact absurd h (by simp)
          · simp only [File.data.injEq] at hb
            subst hb
            refine ⟨some (strtoll (c_string bs) e).1, ?_⟩
            rw [hrd, h1, h2]
            simp
      · have hlong := read_sysfs_uint64_long bs e (Nat.le_of_not_lt hl)
        constructor
        · rintro ⟨v, h⟩
          rw [hlong] at h
          exact absurd h (by simp)
        · rintro (h | h | ⟨bs1, hb, hl1, _⟩)
          · exact absurd h (by simp)
          · exact absurd h (by simp)
          · simp only [File.data.injEq] at hb
            subst hb
            exact absurd hl1 hl

/-- The amended C3 at the file "abc" with a stale `errno == ERANGE`; and the
test of `errno` at work: a file holding 9223372036854775807 is read with
result true when `errno` is 0 and with result false when `errno` is a stale
`ERANGE`, and a file holding 9223372036854775808 is read with result false. -/
theorem read_sysfs_uint64_no_digits_witness :
    read_sysfs_uint64 (.data "abc".toList) 34 = .returned true (some 0) ∧
    read_sysfs_uint64 (.data "9223372036854775807".toList) 0 =
      .returned true (some 9223372036854775807) ∧
    read_sysfs_uint64 (.data "9223372036854775807".toList) 34 =
      .returned false (some 9223372036854775807) ∧
    read_sysfs_uint64 (.data "9223372036854775808".toList) 0 =
      .returned false (some 9223372036854775807) :=
  ⟨(read_sysfs_uint64_no_digits "abc".toList 34 (by decide) (by decide)).1,
   by decide, by decide, by decide⟩

/-! ## Properties of the sampler -/

theorem sub64_exact (a b : Int) (h0 : 0 ≤ a) (h1 : a ≤ b) (h2 : b ≤ 2 ^ 63 - 1) :
    sub64 b a = b - a := by
  unfold sub64 wrap64
  omega

theorem sub64_exact_nonneg (a b : Int) (ha : 0 ≤ a) (ha2 : a ≤ 2 ^ 63 - 1)
    (hb : 0 ≤ b) (hb2 : b ≤ 2 ^ 63 - 1) :
    sub64 b a = b - a := by
  unfold sub64 wrap64
  omega

theorem apply_stores_snapshot (rate d : Quad) :
    apply_stores rate (snapshot_stores d) = d := by
  cases d
  rfl

/-- C1: a sampling iteration whose first group of reads delivers `T0` and
whose second group delivers `T1`, with `0 ≤ T0.f ≤ T1.f ≤ 2^63 - 1` in every
field, runs to the end of the loop body and leaves in each slot of the rate
snapshot the mathematical difference `T1.f - T0.f`, through four atomic
stores of these values. -/
theorem sampling_iteration_delta (env : Sysfs) (s : Sampler) (T0 T1 : Quad)
    (h0 : read_counters (env.call s.round) s.last = some (true, T0))
    (h1 : read_counters (env.call (s.round + 1)) s.cur = some (true, T1))
    (hr : ∀ f : Stat, 0 ≤ T0.get f ∧ T0.get f ≤ T1.get f ∧ T1.get f ≤ 2 ^ 63 - 1) :
    ∃ s1 : Sampler, sampling_iteration env s = .next s1 ∧
      s1.rate.tx_bytes = T1.tx_bytes - T0.tx_bytes ∧
      s1.rate.rx_bytes = T1.rx_bytes - T0.rx_bytes ∧
      s1.rate.tx_packets = T1.tx_packets - T0.tx_packets ∧
      s1.rate.rx_packets = T1.rx_packets - T0.rx_packets ∧
      s1.log = s.log ++ [.sleep 1,
        .store .tx_bytes (T1.tx_bytes - T0.tx_bytes),
        .store .tx_packets (T1.tx_packets - T0.tx_packets),
        .store .rx_bytes (T1.rx_bytes - T0.rx_bytes),
        .store .rx_packets (T1.rx_packets - T0.rx_packets)] := by
  have e1 := hr .tx_bytes
  have e2 := hr .rx_bytes
  have e3 := hr .tx_packets
  have e4 := hr .rx_packets
  simp only [Quad.get] at e1 e2 e3 e4
  have d1 := sub64_exact _ _ e1.1 e1.2.1 e1.2.2
  have d2 := sub64_exact _ _ e2.1 e2.2.1 e2.2.2
  have d3 := sub64_exact _ _ e3.1 e3.2.1 e3.2.2
  have d4 := sub64_exact _ _ e4.1 e4.2.1 e4.2.2
  have hstep : sampling_iteration env s =
      .next { s with last := T0, cur := T1.sub T0, round := s.round + 2,
                     rate := apply_stores s.rate (snapshot_stores (T1.sub T0)),
                     log := s.log ++ [.sleep 1] ++
                       (snapshot_stores (T1.sub T0)).map (fun sv => Event.store sv.1 sv.2) } := by
    simp only [sampling_iteration, h0, h1]
  refine ⟨_, hstep, ?_⟩
  · simp only [Quad.sub, snapshot_stores, d1, d2, d3, d4,
      List.map, List.append_assoc, List.cons_append, List.nil_append]
    exact ⟨rfl, rfl, rfl, rfl, trivial⟩

/-- C1 on the readings of the end-to-end scenario: (1000, 2000, 10, 20) and
then (1500, 2600, 15, 28) leave (500, 600, 5, 8) in the rate snapshot. -/
theorem sampling_iteration_delta_witness :
    ∃ s1 : Sampler,
      sampling_iteration scenario_env (Sampler.init Quad.zero Quad.zero) = .next s1 ∧
      s1.rate = ⟨500, 600, 5, 8⟩ := by
  obtain ⟨s1, h, a, b, c, d, _⟩ :=
    sampling_iteration_delta scenario_env (Sampler.init Quad.zero Quad.zero)
      ⟨1000, 2000, 10, 20⟩ ⟨1500, 2600, 15, 28⟩ (by decide) (by decide)
      (by intro f; cases f <;> decide)
  refine ⟨s1, h, ?_⟩
  cases hs : s1.rate
  rw [hs] at a b c d
  simp only at a b c d
  rw [a, b, c, d]
  rfl

/-- C5: when at least one of the four counter paths does not exist at
startup, `monitoring_thread` exits at line 92 whatever the flag and the
counters do: the loop condition is never evaluated, no group of reads is
started, the log holds the error message alone (so no `atomic_store`), and
the four slots of the rate snapshot still hold their initial 0. -/
theorem monitoring_thread_missing_path (env : Sysfs) (interrupted : Nat → Bool) (fuel : Nat)
    (last cur : Quad) (h : ∃ f : Stat, env.access f = false) :
    ∃ s : Sampler,
      monitoring_thread env interrupted fuel (Sampler.init last cur) =
        .done (.monitoring_error, s) ∧
      s.checks = 0 ∧ s.round = 0 ∧ s.log = [.err_monitoring] ∧
      (∀ (slot : Stat) (v : Int), Event.store slot v ∉ s.log) ∧
      s.rate = Quad.zero := by
  have hc : (!env.access .tx_bytes || !env.access .rx_bytes ||
      !env.access .tx_packets || !env.access .rx_packets) = true := by
    obtain ⟨f, hf⟩ := h
    cases f <;> simp [hf]
  refine ⟨{ Sampler.init last cur with log := [.err_monitoring] }, ?_, rfl, rfl, rfl, ?_, rfl⟩
  · simp only [monitoring_thread, sampler_start, hc, if_true]
    rfl
  · intro slot v hmem
    simp at hmem

/-- C5 on an interface whose `rx_packets` path is missing. -/
theorem monitoring_thread_missing_path_witness :
    missing_env.access .rx_packets = false ∧
    ∃ s : Sampler,
      monitoring_thread missing_env (fun _ => false) 5 (Sampler.init Quad.zero Quad.zero) =
        .done (.monitoring_error, s) ∧
      s.rate = Quad.zero :=
  ⟨by decide, by
    obtain ⟨s, h1, _, _, _, _, h2⟩ :=
      monitoring_thread_missing_path missing_env (fun _ => false) 5 Quad.zero Quad.zero
        ⟨.rx_packets, by decide⟩
    exact ⟨s, h1, h2⟩⟩

theorem strtoll_range (str : List Char) (errno : Int) :
    LLONG_MIN ≤ (strtoll str errno).1 ∧ (strtoll str errno).1 ≤ LLONG_MAX := by
  simp only [strtoll, LLONG_MIN, LLONG_MAX]
  split_ifs <;> constructor <;> simp only [] <;> omega

theorem read_sysfs_uint64_range (f : File) (e : Int) (ok : Bool) (v : Int)
    (h : read_sysfs_uint64 f e = .returned ok (some v)) :
    -(2 ^ 63) ≤ v ∧ v ≤ 2 ^ 63 - 1 := by
  cases f with
  | unopenable => simp [read_sysfs_uint64] at h
  | unreadable => simp [read_sysfs_uint64] at h
  | data bs =>
    simp only [read_sysfs_uint64] at h
    split at h
    · simp only [ReadResult.returned.injEq, Option.some.injEq] at h
      have hr := strtoll_range (c_string (sys_read bs MAX_UINT64_LENGTH)) e
      simp only [LLONG_MIN, LLONG_MAX] at hr
      rw [h.2] at hr
      exact hr
    · exact absurd h (by simp)

theorem read_sysfs_uint64_true (f : File) (e : Int) (v : Option Int)
    (h : read_sysfs_uint64 f e = .returned true v) : ∃ x, v = some x := by
  cases f with
  | unopenable => simp [read_sysfs_uint64] at h
  | unreadable => simp [read_sysfs_uint64] at h
  | data bs =>
    simp only [read_sysfs_uint64] at h
    split at h
    · simp only [ReadResult.returned.injEq] at h
      exact ⟨_, h.2.symm⟩
    · exact absurd h (by simp)

theorem read_counters_from_true (c : Stat → SysfsCall) :
    ∀ (l : List Stat) (dst q : Quad),
      read_counters_from c l dst = some (true, q) ↔
        ((∀ s ∈ l, read_ok (c s) = true) ∧
          q = l.foldl (fun d s => d.set s (stored_value (c s))) dst) := by
  intro l
  induction l with
  | nil =>
    intro dst q
    simp only [read_counters_from, List.foldl_nil]
    constructor
    · intro h
      simp only [Option.some.injEq, Prod.mk.injEq, true_and] at h
      exact ⟨by simp, h.symm⟩
    · rintro ⟨_, h⟩
      rw [h]
  | cons s rest ih =>
    intro dst q
    simp only [read_counters_from, List.mem_cons, forall_eq_or_imp, List.foldl_cons]
    cases hr : read_sysfs_uint64 (c s).file (c s).errno with
    | overrun i => simp [read_ok, hr]
    | returned ok v =>
      cases ok with
      | false => simp [read_ok, hr]
      | true =>
        obtain ⟨x, hx⟩ := read_sysfs_uint64_true _ _ _ hr
        subst hx
        simp only [if_true, ih, read_ok, stored_value, hr, true_and]

theorem read_counters_from_false (c : Stat → SysfsCall) :
    ∀ (l : List Stat) (dst q dst1 : Quad),
      read_counters_from c l dst = some (false, q) →
        ∃ q1, read_counters_from c l dst1 = some (false, q1) := by
  intro l
  induction l with
  | nil =>
    intro dst q dst1 h
    simp [read_counters_from] at h
  | cons s rest ih =>
    intro dst q dst1 h
    simp only [read_counters_from] at h ⊢
    cases hr : read_sysfs_uint64 (c s).file (c s).errno with
    | overrun i => simp [hr] at h
    | returned ok v =>
      rw [hr] at h
      cases ok with
      | false => exact ⟨_, rfl⟩
      | true =>
        simp only [if_true] at h ⊢
        exact ih _ _ _ h

theorem read_counters_true (c : Stat → SysfsCall) (dst q : Quad)
    (h : read_counters c dst = some (true, q)) (dst1 : Quad) :
    read_counters c dst1 = some (true, q) := by
  unfold read_counters at h ⊢
  rw [read_counters_from_true] at h ⊢
  refine ⟨h.1, ?_⟩
  rw [h.2]
  rfl

theorem reading_some (c : Stat → SysfsCall) (q : Quad) (h : reading c = some q) (dst : Quad) :
    read_counters c dst = some (true, q) := by
  unfold reading at h
  split at h
  · rename_i q1 hq
    simp only [Option.some.injEq] at h
    subst h
    exact read_counters_true c _ _ hq dst
  · exact absurd h (by simp)

theorem read_fails_true (c : Stat → SysfsCall) (h : read_fails c = true) (dst : Quad) :
    ∃ q, read_counters c dst = some (false, q) := by
  unfold read_fails at h
  split at h
  · rename_i q1 hq
    exact read_counters_from_false c _ _ _ dst hq
  · exact absurd h (by simp)

theorem reading_range (c : Stat → SysfsCall) (q : Quad) (h : reading c = some q) (f : Stat) :
    -(2 ^ 63) ≤ q.get f ∧ q.get f ≤ 2 ^ 63 - 1 := by
  have h1 := reading_some c q h Quad.zero
  unfold read_counters at h1
  rw [read_counters_from_true] at h1
  obtain ⟨hok, hq⟩ := h1
  have key : ∀ s : Stat, -(2 ^ 63) ≤ stored_value (c s) ∧ stored_value (c s) ≤ 2 ^ 63 - 1 := by
    intro s
    unfold stored_value
    split
    · rename_i ok v hv
      exact read_sysfs_uint64_range _ _ _ _ hv
    · constructor <;> norm_num
  subst hq
  cases f
  · exact key .tx_bytes
  · exact key .rx_bytes
  · exact key .tx_packets
  · exact key .rx_packets

theorem sampling_iteration_next (env : Sysfs) (s : Sampler) (a b : Quad)
    (ha : reading (env.call s.round) = some a)
    (hb : reading (env.call (s.round + 1)) = some b) :
    ∃ s2, sampling_iteration env s = .next s2 ∧ s2.round = s.round + 2 ∧
      s2.checks = s.checks ∧ s2.total = s.total := by
  have h0 := reading_some _ _ ha s.last
  have h1 := reading_some _ _ hb s.cur
  have hstep : sampling_iteration env s =
      .next { s with last := a, cur := b.sub a, round := s.round + 2,
                     rate := apply_stores s.rate (snapshot_stores (b.sub a)),
                     log := s.log ++ [.sleep 1] ++
                       (snapshot_stores (b.sub a)).map (fun sv => Event.store sv.1 sv.2) } := by
    simp only [sampling_iteration, h0, h1]
  exact ⟨_, hstep, rfl, rfl, rfl⟩

theorem sampling_loop_iterate (env : Sysfs) (interrupted : Nat → Bool) :
    ∀ (n fuel : Nat) (s : Sampler),
      (∀ i, i < n → interrupted (s.checks + i) = false ∧
        (reading (env.call (s.round + 2 * i))).isSome = true ∧
        (reading (env.call (s.round + 2 * i + 1))).isSome = true) →
      ∃ s1, sampling_loop env interrupted (n + fuel) s = sampling_loop env interrupted fuel s1 ∧
        s1.checks = s.checks + n ∧ s1.round = s.round + 2 * n ∧ s1.total = s.total := by
  intro n
  induction n with
  | zero =>
    intro fuel s _
    exact ⟨s, by simp, rfl, rfl, rfl⟩
  | succ n ih =>
    intro fuel s h
    obtain ⟨hflag, h0, h1⟩ := h 0 (Nat.succ_pos n)
    simp only [Nat.mul_zero, Nat.add_zero] at hflag h0 h1
    obtain ⟨a, ha⟩ := Option.isSome_iff_exists.mp h0
    obtain ⟨b, hb⟩ := Option.isSome_iff_exists.mp h1
    obtain ⟨s2, hstep, hr2, hc2, ht2⟩ :=
      sampling_iteration_next env { s with checks := s.checks + 1 } a b ha hb
    have hrest : ∀ i, i < n → interrupted (s2.checks + i) = false ∧
        (reading (env.call (s2.round + 2 * i))).isSome = true ∧
        (reading (env.call (s2.round + 2 * i + 1))).isSome = true := by
      intro i hi
      obtain ⟨g1, g2, g3⟩ := h (i + 1) (Nat.succ_lt_succ hi)
      have e1 : s2.checks + i = s.checks + (i + 1) := by rw [hc2]; simp only []; omega
      have e2 : s2.round + 2 * i = s.round + 2 * (i + 1) := by rw [hr2]; simp only []; omega
      rw [e1, e2]
      exact ⟨g1, g2, g3⟩
    obtain ⟨s3, hloop, hc3, hr3, ht3⟩ := ih fuel s2 hrest
    refine ⟨s3, ?_, ?_, ?_, ?_⟩
    · have hf : n + 1 + fuel = (n + fuel) + 1 := by omega
      rw [hf]
      simp only [sampling_loop, hflag, hstep]
      exact hloop
    · rw [hc3, hc2]; simp only []; omega
    · rw [hr3, hr2]; simp only []; omega
    · rw [ht3, ht2]

theorem sampler_finish_ok (env : Sysfs) (s : Sampler) (F : Quad)
    (h : reading (env.call s.round) = some F) :
    sampler_finish env s =
      some (.finalized, { s with last := F, round := s.round + 1, total := F.sub s.total }) := by
  have h0 := reading_some _ _ h s.last
  simp only [sampler_finish, h0]

theorem sampler_start_ok (env : Sysfs) (s : Sampler) (B : Quad)
    (haccess : ∀ f : Stat, env.access f = true)
    (h : reading (env.call s.round) = some B) :
    sampler_start env s =
      some (none, { s with total := B, round := s.round + 1,
                           log := s.log ++ [.status_started] }) := by
  have h0 := reading_some _ _ h s.total
  simp [sampler_start, haccess, h0]

/-- C2: in a run of `monitoring_thread` in which the four paths exist, the
baseline read delivers `B`, the loop body runs `n` times (any `n`, also 0)
and the loop then ends - because the flag is found set, or because the first
or the second group of reads of the next pass fails - and the last read
delivers `F`, the thread reaches line 147 (given room for `n + 1` evaluations
of the loop condition) with the totals equal to `F - B` field by field in
`int64_t` arithmetic, which is the mathematical difference whenever both
readings are non-negative. -/
theorem monitoring_thread_totals (env : Sysfs) (interrupted : Nat → Bool)
    (n fuel final_round : Nat) (last cur B F : Quad)
    (haccess : ∀ f : Stat, env.access f = true)
    (hbase : reading (env.call 0) = some B)
    (hiter : ∀ i, i < n → interrupted i = false ∧
      (reading (env.call (2 * i + 1))).isSome = true ∧
      (reading (env.call (2 * i + 2))).isSome = true)
    (hexit : (interrupted n = true ∧ final_round = 2 * n + 1) ∨
      (interrupted n = false ∧ read_fails (env.call (2 * n + 1)) = true ∧
        final_round = 2 * n + 2) ∨
      (interrupted n = false ∧ (reading (env.call (2 * n + 1))).isSome = true ∧
        read_fails (env.call (2 * n + 2)) = true ∧ final_round = 2 * n + 3))
    (hfinal : reading (env.call final_round) = some F)
    (hfuel : n < fuel) :
    ∃ s : Sampler,
      monitoring_thread env interrupted fuel (Sampler.init last cur) = .done (.finalized, s) ∧
      s.total = F.sub B ∧
      (∀ f : Stat, 0 ≤ B.get f → 0 ≤ F.get f → s.total.get f = F.get f - B.get f) := by
  -- the totals are `F.sub B`
  have hexact : ∀ f : Stat, 0 ≤ B.get f → 0 ≤ F.get f → (F.sub B).get f = F.get f - B.get f := by
    intro f hB hF
    have rB := (reading_range _ _ hbase f).2
    have rF := (reading_range _ _ hfinal f).2
    have := sub64_exact_nonneg _ _ hB rB hF rF
    cases f <;> exact this
  -- startup and baseline
  have hstart : sampler_start env (Sampler.init last cur) =
      some (none, { rate := Quad.zero, total := B, last := last, cur := cur, round := 1,
                    checks := 0, log := [.status_started] }) :=
    sampler_start_ok env (Sampler.init last cur) B haccess hbase
  -- the `n` full passes
  obtain ⟨m, hm⟩ : ∃ m, fuel = n + (m + 1) := ⟨fuel - n - 1, by omega⟩
  subst hm
  obtain ⟨s1, hloop, hc1, hr1, ht1⟩ :=
    sampling_loop_iterate env interrupted n (m + 1)
      { rate := Quad.zero, total := B, last := last, cur := cur, round := 1,
        checks := 0, log := [.status_started] }
      (by
        intro i hi
        obtain ⟨g1, g2, g3⟩ := hiter i hi
        have e0 : 0 + i = i := by omega
        have e1 : 1 + 2 * i = 2 * i + 1 := by omega
        have e2 : 1 + 2 * i + 1 = 2 * i + 2 := by omega
        simp only [e0, e1, e2]
        exact ⟨g1, g2, g3⟩)
  simp only [Nat.zero_add] at hc1 hr1 ht1
  have hr1b : s1.round = 2 * n + 1 := by omega
  -- the pass that leaves the loop
  have hleft : ∃ sx, sampling_loop env interrupted (m + 1) s1 = .done sx ∧
      sx.total = B ∧ sx.round = final_round := by
    rcases hexit with ⟨hflag, hfr⟩ | ⟨hflag, hfail, hfr⟩ | ⟨hflag, hok, hfail, hfr⟩
    · refine ⟨{ s1 with checks := s1.checks + 1 }, ?_, ht1, ?_⟩
      · simp only [sampling_loop, hc1, hflag, if_true]
      · simp only []; omega
    · obtain ⟨q, hq⟩ := read_fails_true _ hfail s1.last
      refine ⟨{ s1 with checks := s1.checks + 1, last := q, round := s1.round + 1,
                        log := s1.log ++ [.err_sysfs 1] }, ?_, ht1, ?_⟩
      · simp only [sampling_loop, hc1, hflag, sampling_iteration, hr1b, hq]
        rfl
      · simp only []; omega
    · obtain ⟨a, ha⟩ := Option.isSome_iff_exists.mp hok
      have ha1 := reading_some _ _ ha s1.last
      obtain ⟨q, hq⟩ := read_fails_true _ hfail s1.cur
      refine ⟨{ s1 with checks := s1.checks + 1, last := a, cur := q, round := s1.round + 2,
                        log := s1.log ++ [.sleep 1, .err_sysfs 2] }, ?_, ht1, ?_⟩
      · simp only [sampling_loop, hc1, hflag, sampling_iteration, hr1b, ha1, hq]
        rfl
      · simp only []; omega
  obtain ⟨sx, hdone, htx, hrx⟩ := hleft
  have hfin := sampler_finish_ok env sx F (by rw [hrx]; exact hfinal)
  refine ⟨{ sx with last := F, round := sx.round + 1, total := F.sub sx.total }, ?_, ?_, ?_⟩
  · simp only [monitoring_thread, hstart, hloop, hdone, hfin]
  · simp only [htx]
  · simp only [htx]; exact hexact

/-- C2 on the end-to-end scenario: baseline (1000, 2000, 10, 20), one pass
of the loop, last reading (1500, 2600, 15, 28). -/
theorem monitoring_thread_totals_witness :
    ∃ s : Sampler,
      monitoring_thread scenario_env (fun i => decide (1 ≤ i)) 2
        (Sampler.init Quad.zero Quad.zero) = .done (.finalized, s) ∧
      s.total = ⟨500, 600, 5, 8⟩ := by
  obtain ⟨s, h, ht, _⟩ :=
    monitoring_thread_totals scenario_env (fun i => decide (1 ≤ i)) 1 2 3
      Quad.zero Quad.zero ⟨1000, 2000, 10, 20⟩ ⟨1500, 2600, 15, 28⟩
      (by intro f; rfl) (by decide)
      (by
        intro i hi
        have : i = 0 := by omega
        subst this
        decide)
      (Or.inl (by decide)) (by decide) (by decide)
  exact ⟨s, h, by rw [ht]; decide⟩

/-- C4: the claim asks for four zero totals when a read of the last group
fails.  With baseline (1000, 2000, 10, 20), the flag set at the first loop
check and counter files that can no longer be opened, the thread exits at
line 139 after a single failed read, and the total globals still hold the
baseline reading (1000, 2000, 10, 20), which `main` then prints in its
statistics block. -/
theorem monitoring_thread_final_read_fails :
    final_totals (monitoring_thread vanishing_env (fun _ => true) 1
        (Sampler.init Quad.zero Quad.zero)) =
      some (.final_failed, ⟨1000, 2000, 10, 20⟩) ∧
    main ⟨none, 0, none, 1⟩ ⟨true, true, true, fun _ => true⟩ (fun _ => true)
        (fun _ => Quad.zero) 1 ⟨1000, 2000, 10, 20⟩ =
      .done [.warning_mqtt, .pthread_create, .pthread_join,
             .statistics ⟨1000, 2000, 10, 20⟩] := by
  constructor
  · decide
  · decide

/-! ## Properties of the reporter -/

theorem silent_unavailable_iff (c : Config) :
    (broker_available c = false ∧ main_warns c = false) ↔
      (c.broker_address.isSome = true ∧ 0 ≤ c.broker_port ∧ c.broker_port ≤ 65535 ∧
        (c.broker_port = 0 ∨ c.broker_port = 65535 ∨ c.broker_topic.isSome = false)) := by
  obtain ⟨a, p, t, d⟩ := c
  cases a <;> cases t <;> simp [broker_available, main_warns]
  omega

/-- C8: the claim asks for the warning whenever the publisher is not
configured.  With a broker address and a topic but port 0 (no `-p` option),
`broker_available` is false and the condition of the warning in `main` is
false too: the run makes no connect and no publish call and prints no
warning.  The same holds with port 65535 and with a missing topic. -/
theorem main_no_warning_port_zero :
    broker_available ⟨some "localhost", 0, some "net_monitor", 1⟩ = false ∧
    main_warns ⟨some "localhost", 0, some "net_monitor", 1⟩ = false ∧
    main ⟨some "localhost", 0, some "net_monitor", 1⟩ ⟨true, true, true, fun _ => true⟩
        (fun n => decide (1 ≤ n)) (fun _ => Quad.zero) 2 Quad.zero =
      .done [.pthread_create, .load .rx_bytes 0, .load .tx_bytes 0, .load .rx_packets 0,
             .load .tx_packets 0, .data Quad.zero, .sleep 1, .pthread_join,
             .statistics Quad.zero] ∧
    broker_available ⟨some "localhost", 65535, some "net_monitor", 1⟩ = false ∧
    main_warns ⟨some "localhost", 65535, some "net_monitor", 1⟩ = false ∧
    broker_available ⟨some "localhost", 1883, none, 1⟩ = false ∧
    main_warns ⟨some "localhost", 1883, none, 1⟩ = false := by
  refine ⟨by decide, by decide, by decide, by decide, by decide, by decide, by decide⟩

theorem reporter_cycle_published (c : Config) (loaded : Quad) (r : Reporter)
    (hav : broker_available c = true) :
    ∃ r1, reporter_cycle c true loaded r = .next r1 ∧ r1.checks = r.checks ∧
      r1.cycles = r.cycles + 1 ∧
      r1.log.countP is_publish = r.log.countP is_publish + 1 ∧
      r1.log.count .mosquitto_disconnect = r.log.count .mosquitto_disconnect := by
  refine ⟨{ r with cycles := r.cycles + 1,
                   log := r.log ++ snapshot_loads.map (fun s => Event.load s (loaded.get s)) ++
                     [.mosquitto_publish loaded, .status_published, .data loaded,
                      .sleep c.sampling_delay] }, ?_, rfl, rfl, ?_, ?_⟩
  · simp only [reporter_cycle, hav, if_true]
  · simp [snapshot_loads, is_publish, List.countP_append, List.countP_cons]
  · simp [snapshot_loads, List.count_append, List.count_cons]

theorem reporter_loop_iterate (c : Config) (calls : Calls) (interrupted : Nat → Bool)
    (loaded : Nat → Quad) (hav : broker_available c = true) :
    ∀ (j fuel : Nat) (r : Reporter),
      (∀ i, i < j → interrupted (r.checks + i) = false ∧
        calls.publish_ok (r.cycles + i) = true) →
      ∃ r1, reporter_loop c calls interrupted loaded (j + fuel) r =
          reporter_loop c calls interrupted loaded fuel r1 ∧
        r1.checks = r.checks + j ∧ r1.cycles = r.cycles + j ∧
        r1.log.countP is_publish = r.log.countP is_publish + j ∧
        r1.log.count .mosquitto_disconnect = r.log.count .mosquitto_disconnect := by
  intro j
  induction j with
  | zero =>
    intro fuel r _
    exact ⟨r, by simp, rfl, rfl, rfl, rfl⟩
  | succ j ih =>
    intro fuel r h
    obtain ⟨hflag, hpub⟩ := h 0 (Nat.succ_pos j)
    simp only [Nat.add_zero] at hflag hpub
    obtain ⟨r1, hstep, hc1, hy1, hp1, hd1⟩ :=
      reporter_cycle_published c (loaded r.cycles) { r with checks := r.checks + 1 } hav
    have hrest : ∀ i, i < j → interrupted (r1.checks + i) = false ∧
        calls.publish_ok (r1.cycles + i) = true := by
      intro i hi
      obtain ⟨g1, g2⟩ := h (i + 1) (Nat.succ_lt_succ hi)
      have e1 : r1.checks + i = r.checks + (i + 1) := by rw [hc1]; simp only []; omega
      have e2 : r1.cycles + i = r.cycles + (i + 1) := by rw [hy1]; simp only []; omega
      rw [e1, e2]
      exact ⟨g1, g2⟩
    obtain ⟨r2, hloop, hc2, hy2, hp2, hd2⟩ := ih fuel r1 hrest
    refine ⟨r2, ?_, ?_, ?_, ?_, ?_⟩
    · have hf : j + 1 + fuel = (j + fuel) + 1 := by omega
      rw [hf]
      simp only [reporter_loop, hflag, hpub, hstep]
      exact hloop
    · rw [hc2, hc1]; simp only []; omega
    · rw [hy2, hy1]; simp only []; omega
    · rw [hp2, hp1]; simp only []; omega
    · rw [hd2, hd1]

/-- C7: with a configured publisher, a successful start, the flag unset at
the first `k` loop checks and `mosquitto_publish` succeeding in cycles
`1 .. k-1` and failing in cycle `k` (`k ≥ 1`), `monitor_interface` returns
(given room for `k` loop checks) after exactly `k` calls of
`mosquitto_publish`; the failed call is followed only by the error message,
one `mosquitto_disconnect` (the only one of the run), `mosquitto_destroy`
and `pthread_join`. -/
theorem monitor_interface_publish_failure (c : Config) (calls : Calls)
    (interrupted : Nat → Bool) (loaded : Nat → Quad) (k fuel : Nat)
    (hav : broker_available c = true) (hnew : calls.new_ok = true)
    (hconn : calls.connect_ok = true) (hcreate : calls.create_ok = true)
    (hk : 1 ≤ k) (hflag : ∀ i, i < k → interrupted i = false)
    (hpub : ∀ i, i + 1 < k → calls.publish_ok i = true)
    (hfail : calls.publish_ok (k - 1) = false) (hfuel : k ≤ fuel) :
    ∃ r : Reporter,
      monitor_interface c calls interrupted loaded fuel Reporter.init = .done r ∧
      r.cycles = k ∧
      r.log.countP is_publish = k ∧
      r.log.count .mosquitto_disconnect = 1 ∧
      ∃ pre, r.log = pre ++ [.mosquitto_publish (loaded (k - 1)), .err_publish,
        .mosquitto_disconnect, .mosquitto_destroy, .pthread_join] := by
  obtain ⟨j, hj⟩ : ∃ j, k = j + 1 := ⟨k - 1, by omega⟩
  subst hj
  obtain ⟨m, hm⟩ : ∃ m, fuel = j + (m + 1) := ⟨fuel - j - 1, by omega⟩
  subst hm
  simp only [Nat.add_sub_cancel] at hfail ⊢
  have hstart : reporter_start c calls Reporter.init =
      (true, { checks := 0, cycles := 0,
               log := [.mosquitto_new, .status_connecting, .mosquitto_connect,
                       .status_connected, .pthread_create] }) := by
    simp [reporter_start, hav, hnew, hconn, hcreate, Reporter.init]
  obtain ⟨r1, hloop, hc1, hy1, hp1, hd1⟩ :=
    reporter_loop_iterate c calls interrupted loaded hav j (m + 1)
      { checks := 0, cycles := 0,
        log := [.mosquitto_new, .status_connecting, .mosquitto_connect,
                .status_connected, .pthread_create] }
      (by
        intro i hi
        simp only [Nat.zero_add]
        exact ⟨hflag i (by omega), hpub i (by omega)⟩)
  simp only [Nat.zero_add] at hc1 hy1
  have hp1b : r1.log.countP is_publish = j := by
    rw [hp1]; simp [is_publish]
  have hd1b : r1.log.count .mosquitto_disconnect = 0 := by
    rw [hd1]; simp
  have hflagj : interrupted r1.checks = false := by rw [hc1]; exact hflag j (by omega)
  have hfailj : calls.publish_ok r1.cycles = false := by rw [hy1]; exact hfail
  have hlast : reporter_loop c calls interrupted loaded (m + 1) r1 =
      .done { r1 with checks := r1.checks + 1, cycles := r1.cycles + 1,
                      log := r1.log ++
                        snapshot_loads.map (fun s => Event.load s ((loaded r1.cycles).get s)) ++
                        [.mosquitto_publish (loaded r1.cycles), .err_publish] } := by
    simp [reporter_loop, hflagj, hfailj, reporter_cycle, hav]
  refine ⟨{ checks := r1.checks + 1, cycles := r1.cycles + 1,
            log := r1.log ++
              snapshot_loads.map (fun s => Event.load s ((loaded r1.cycles).get s)) ++
              [.mosquitto_publish (loaded r1.cycles), .err_publish] ++
              [.mosquitto_disconnect, .mosquitto_destroy] ++ [.pthread_join] }, ?_, ?_, ?_, ?_, ?_⟩
  · simp only [monitor_interface, hstart, hloop, hlast, reporter_close, hav, if_true]
  · simp only [hy1]
  · simp [List.countP_append, List.countP_cons, hp1b, is_publish, snapshot_loads]
  · simp [List.count_append, List.count_cons, hd1b, snapshot_loads]
  · refine ⟨r1.log ++
      snapshot_loads.map (fun s => Event.load s ((loaded r1.cycles).get s)), ?_⟩
    simp [hy1]

/-- C7 with a failure in cycle 3: three publish attempts, then one
disconnect. -/
theorem monitor_interface_publish_failure_witness :
    ∃ r : Reporter,
      monitor_interface broker_config (publish_fails_at 3) (fun _ => false)
        (fun _ => Quad.zero) 3 Reporter.init = .done r ∧
      r.log.countP is_publish = 3 ∧
      r.log.count .mosquitto_disconnect = 1 := by
  obtain ⟨r, h, _, hp, hd, _⟩ :=
    monitor_interface_publish_failure broker_config (publish_fails_at 3) (fun _ => false)
      (fun _ => Quad.zero) 3 3 (by decide) rfl rfl rfl (by decide) (by intro i _; rfl)
      (by
        intro i hi
        simp only [publish_fails_at]
        exact decide_eq_true hi)
      (by decide) (by decide)
  exact ⟨r, h, hp, hd⟩

/-! ## Properties of the two threads together -/

theorem step_interrupted (c : Config) (calls : Calls) (env : Sysfs) (σ : System) (a : Actor)
    (h : a ≠ .sigint) :
    (System.step c calls env σ a).interrupted = σ.interrupted := by
  cases a with
  | sigint => exact absurd rfl h
  | sampler =>
    simp only [System.step, System.sampler_leaves]
    repeat' split
    all_goals rfl
  | reporter =>
    simp only [System.step]
    repeat' split
    all_goals rfl

theorem run_interrupted (c : Config) (calls : Calls) (env : Sysfs) :
    ∀ (sched : List Actor) (σ : System), Actor.sigint ∉ sched →
      (System.run c calls env sched σ).interrupted = σ.interrupted := by
  intro sched
  induction sched with
  | nil => intro σ _; rfl
  | cons a rest ih =>
    intro σ h
    simp only [List.mem_cons, not_or] at h
    simp only [System.run, List.foldl_cons]
    have h1 := ih (System.step c calls env σ a) h.2
    simp only [System.run] at h1
    rw [h1]
    exact step_interrupted c calls env σ a (fun e => h.1 e.symm)

/-- C6 fails as stated: in a run without SIGINT in which the first publish
call fails, the reporter has left its loop and closed the connection (it
waits in `pthread_join`), the flag is still unset, and the sampler, three
passes later, is still in its loop. -/
theorem publish_failure_flag_unset :
    publish_failure_run.interrupted = false ∧
    publish_failure_run.reporter_pc = .joining ∧
    publish_failure_run.reporter.log =
      [.mosquitto_new, .status_connecting, .mosquitto_connect, .status_connected,
       .pthread_create, .load .rx_bytes 0, .load .tx_bytes 0, .load .rx_packets 0,
       .load .tx_packets 0, .mosquitto_publish Quad.zero, .err_publish,
       .mosquitto_disconnect, .mosquitto_destroy] ∧
    publish_failure_run.sampler_pc = .sampling ∧
    publish_failure_run.sampler.checks = 3 := by
  refine ⟨by decide, by decide, by decide, by decide, by decide⟩

theorem sampler_leaves_pc (env : Sysfs) (σ : System) (s : Sampler) :
    (σ.sampler_leaves env s).sampler_pc ≠ .sampling ∧
    (σ.sampler_leaves env s).sampler.rate = s.rate ∧
    (σ.sampler_leaves env s).sampler.checks = s.checks := by
  unfold System.sampler_leaves sampler_finish
  cases h : read_counters (env.call s.round) s.last with
  | none => simp
  | some r =>
    obtain ⟨ok, q⟩ := r
    cases ok <;> simp

theorem sampler_finish_failed (env : Sysfs) (s : Sampler)
    (h : read_fails (env.call s.round) = true) :
    ∃ s1, sampler_finish env s = some (.final_failed, s1) ∧ s1.total = s.total := by
  obtain ⟨q, hq⟩ := read_fails_true _ h s.last
  exact ⟨{ s with last := q, round := s.round + 1, log := s.log ++ [.err_sysfs 2] },
    by simp only [sampler_finish, hq], rfl⟩

/-- C6 as amended: when a publish call fails (publisher configured, flag
unset), that move of the reporter ends its loop, closes the connection and
leaves the reporter in `pthread_join` with the flag unset, and the flag stays
unset along every schedule without SIGINT.  While the flag is unset a sampler
at its loop condition whose two groups of reads succeed stays in the loop.
The delivery of SIGINT sets the flag and changes nothing else; the next move
of a sampler at its loop condition then ends the loop without another pass
(one more loop check, the rate snapshot untouched) and makes the last read:
if that read delivers `F` the thread exits at line 147 with the totals
`F - baseline`, if it fails the thread exits at line 139 with the totals as
they were. -/
theorem publish_failure_no_shutdown (c : Config) (calls : Calls) (env : Sysfs) (σ : System)
    (hav : broker_available c = true) (hpc : σ.reporter_pc = .reporting)
    (hflag : σ.interrupted = false)
    (hfail : calls.publish_ok σ.reporter.cycles = false) :
    (System.step c calls env σ .reporter).reporter_pc = .joining ∧
    (System.step c calls env σ .reporter).interrupted = false ∧
    (System.step c calls env σ .reporter).reporter.log =
      σ.reporter.log ++ snapshot_loads.map (fun s => Event.load s (σ.sampler.rate.get s)) ++
        [.mosquitto_publish σ.sampler.rate, .err_publish,
         .mosquitto_disconnect, .mosquitto_destroy] ∧
    (∀ sched : List Actor, Actor.sigint ∉ sched →
      (System.run c calls env sched (System.step c calls env σ .reporter)).interrupted = false) ∧
    (∀ (τ : System) (a b : Quad), τ.sampler_pc = .sampling → τ.interrupted = false →
      reading (env.call τ.sampler.round) = some a →
      reading (env.call (τ.sampler.round + 1)) = some b →
      (System.step c calls env τ .sampler).sampler_pc = .sampling) ∧
    (∀ τ : System,
      (System.step c calls env τ .sigint).interrupted = true ∧
      (System.step c calls env τ .sigint).sampler_pc = τ.sampler_pc ∧
      (System.step c calls env τ .sigint).sampler = τ.sampler ∧
      (System.step c calls env τ .sigint).reporter_pc = τ.reporter_pc ∧
      (System.step c calls env τ .sigint).reporter = τ.reporter) ∧
    (∀ τ : System, τ.sampler_pc = .sampling →
      (System.step c calls env (System.step c calls env τ .sigint) .sampler).sampler_pc
        ≠ .sampling ∧
      (System.step c calls env (System.step c calls env τ .sigint) .sampler).sampler.rate
        = τ.sampler.rate ∧
      (System.step c calls env (System.step c calls env τ .sigint) .sampler).sampler.checks
        = τ.sampler.checks + 1 ∧
      (∀ F : Quad, reading (env.call τ.sampler.round) = some F →
        (System.step c calls env (System.step c calls env τ .sigint) .sampler).sampler_pc
          = .exited .finalized ∧
        (System.step c calls env (System.step c calls env τ .sigint) .sampler).sampler.total
          = F.sub τ.sampler.total) ∧
      (read_fails (env.call τ.sampler.round) = true →
        (System.step c calls env (System.step c calls env τ .sigint) .sampler).sampler_pc
          = .exited .final_failed ∧
        (System.step c calls env (System.step c calls env τ .sigint) .sampler).sampler.total
          = τ.sampler.total)) := by
  have hstep : System.step c calls env σ .reporter =
      { σ with reporter_pc := .joining,
               reporter := { checks := σ.reporter.checks + 1, cycles := σ.reporter.cycles + 1,
                             log := σ.reporter.log ++
                               snapshot_loads.map (fun s => Event.load s (σ.sampler.rate.get s)) ++
                               [.mosquitto_publish σ.sampler.rate, .err_publish] ++
                               [.mosquitto_disconnect, .mosquitto_destroy] } } := by
    simp [System.step, hpc, hflag, hfail, reporter_cycle, reporter_close, hav]
  refine ⟨?_, ?_, ?_, ?_, ?_, ?_, ?_⟩
  · rw [hstep]
  · rw [hstep]; exact hflag
  · rw [hstep]; simp
  · intro sched hs
    rw [run_interrupted c calls env sched _ hs, hstep]
    exact hflag
  · intro τ a b hτ hf ha hb
    obtain ⟨s2, h2, _, _, _⟩ :=
      sampling_iteration_next env { τ.sampler with checks := τ.sampler.checks + 1 } a b ha hb
    simp [System.step, hτ, hf, h2]
  · intro τ
    exact ⟨rfl, rfl, rfl, rfl, rfl⟩
  · intro τ hτ
    have hmove : System.step c calls env (System.step c calls env τ .sigint) .sampler =
        (System.step c calls env τ .sigint).sampler_leaves env
          { τ.sampler with checks := τ.sampler.checks + 1 } := by
      simp [System.step, hτ, interrupt_set]
    rw [hmove]
    obtain ⟨p1, p2, p3⟩ := sampler_leaves_pc env (System.step c calls env τ .sigint)
      { τ.sampler with checks := τ.sampler.checks + 1 }
    refine ⟨p1, p2, p3, ?_, ?_⟩
    · intro F hF
      have hfin := sampler_finish_ok env { τ.sampler with checks := τ.sampler.checks + 1 } F hF
      simp [System.sampler_leaves, hfin]
    · intro hR
      obtain ⟨s1, hfin, ht⟩ :=
        sampler_finish_failed env { τ.sampler with checks := τ.sampler.checks + 1 } hR
      simp [System.sampler_leaves, hfin, ht]

/-- The amended C6 at the process whose two threads have both reached their
loops and whose first publish call fails: the reporter ends in
`pthread_join` with the flag unset, and after SIGINT the sampler leaves its
loop and exits with the totals (500, 600, 5, 8). -/
theorem publish_failure_no_shutdown_witness :
    (System.step broker_config (publish_fails_at 1) scenario_env both_looping
      .reporter).reporter_pc = .joining ∧
    (System.step broker_config (publish_fails_at 1) scenario_env both_looping
      .reporter).interrupted = false ∧
    (System.step broker_config (publish_fails_at 1) scenario_env
      (System.step broker_config (publish_fails_at 1) scenario_env both_looping .sigint)
      .sampler).sampler_pc = .exited .finalized ∧
    (System.step broker_config (publish_fails_at 1) scenario_env
      (System.step broker_config (publish_fails_at 1) scenario_env both_looping .sigint)
      .sampler).sampler.total = ⟨500, 600, 5, 8⟩ := by
  have h := publish_failure_no_shutdown broker_config (publish_fails_at 1) scenario_env
    both_looping (by decide) (by decide) (by decide) (by decide)
  have h7 := (h.2.2.2.2.2.2 both_looping (by decide)).2.2.2.1 ⟨1500, 2600, 15, 28⟩ (by decide)
  refine ⟨h.1, h.2.1, h7.1, ?_⟩
  rw [h7.2]
  decide

/-! ## Properties of the atomic accesses -/

theorem Quad.get_set (q : Quad) (s t : Stat) (v : Int) :
    (q.set s v).get t = if t = s then v else q.get t := by
  cases s <;> cases t <;> rfl

theorem is_interleaving_cons (xs ys zs : List Op) (z : Op)
    (h : is_interleaving xs ys (z :: zs) = true) :
    (∃ xs1, xs = z :: xs1 ∧ is_interleaving xs1 ys zs = true) ∨
    (∃ ys1, ys = z :: ys1 ∧ is_interleaving xs ys1 zs = true) := by
  simp only [is_interleaving, Bool.or_eq_true] at h
  rcases h with h | h
  · left
    cases xs with
    | nil => simp at h
    | cons x xs1 =>
      simp only [Bool.and_eq_true, beq_iff_eq] at h
      exact ⟨xs1, by rw [h.1], h.2⟩
  · right
    cases ys with
    | nil => simp at h
    | cons y ys1 =>
      simp only [Bool.and_eq_true, beq_iff_eq] at h
      exact ⟨ys1, by rw [h.1], h.2⟩

theorem run_ops_interleaving (P : Stat → Int → Prop) :
    ∀ (zs xs ys : List Op) (m : Quad),
      is_interleaving xs ys zs = true →
      (∀ op ∈ xs, ∃ s v, op = Op.store s v ∧ P s v) →
      (∀ op ∈ ys, ∃ s, op = Op.load s) →
      (∀ s, P s (m.get s)) →
      List.Forall₂ (fun op r => op = Op.load r.1 ∧ P r.1 r.2) ys (run_ops zs m) := by
  intro zs
  induction zs with
  | nil =>
    intro xs ys m h _ _ _
    simp only [is_interleaving, Bool.and_eq_true, List.isEmpty_iff] at h
    rw [h.2]
    exact List.Forall₂.nil
  | cons z zs ih =>
    intro xs ys m h hx hy hm
    rcases is_interleaving_cons xs ys zs z h with ⟨xs1, hxs, hi⟩ | ⟨ys1, hys, hi⟩
    · subst hxs
      obtain ⟨s, v, hs, hP⟩ := hx z (List.mem_cons_self _ _)
      subst hs
      simp only [run_ops]
      apply ih xs1 ys _ hi (fun op hop => hx op (List.mem_cons_of_mem _ hop)) hy
      intro t
      rw [Quad.get_set]
      by_cases hts : t = s
      · subst hts
        simp only [if_true]
        exact hP
      · simp only [hts, if_false]
        exact hm t
    · subst hys
      obtain ⟨s, hs⟩ := hy z (List.mem_cons_self _ _)
      subst hs
      simp only [run_ops]
      exact List.Forall₂.cons ⟨rfl, hm s⟩
        (ih xs ys1 m hi hx (fun op hop => hy op (List.mem_cons_of_mem _ hop)) hm)

theorem mem_run_stores (deltas : Nat → Quad) :
    ∀ (k g : Nat) (op : Op), op ∈ run_stores deltas g k →
      ∃ s n, g + 1 ≤ n ∧ n ≤ g + k ∧ op = Op.store s ((deltas n).get s) := by
  intro k
  induction k with
  | zero =>
    intro g op h
    simp [run_stores] at h
  | succ k ih =>
    intro g op h
    simp only [run_stores, List.mem_append] at h
    rcases h with h | h
    · simp only [sampler_ops, snapshot_stores, List.map, List.mem_cons, List.mem_singleton,
        List.mem_nil_iff, or_false] at h
      rcases h with h | h | h | h
      · exact ⟨.tx_bytes, g + 1, Nat.le_refl _, by omega, h⟩
      · exact ⟨.tx_packets, g + 1, Nat.le_refl _, by omega, h⟩
      · exact ⟨.rx_bytes, g + 1, Nat.le_refl _, by omega, h⟩
      · exact ⟨.rx_packets, g + 1, Nat.le_refl _, by omega, h⟩
    · obtain ⟨s, n, h1, h2, h3⟩ := ih (g + 1) op h
      exact ⟨s, n, by omega, by omega, h3⟩

theorem generation_rising (n : Nat) : generation rising_deltas n = rising_deltas n := by
  unfold generation
  split
  · rename_i h
    subst h
    rfl
  · rfl

/-- C9 fails as stated over a run: the reporter makes its first load, the
sampler completes its first two iterations, and the reporter makes its other
three loads.  The cycle then holds rx_bytes = 0 of generation 0 (the initial
value) together with tx_bytes = 1000, rx_packets = 16 and tx_packets = 10 of
generation 2, and no assignment of generations at most one apart accounts
for the four values. -/
theorem snapshot_loads_two_generations_apart :
    is_interleaving (run_stores rising_deltas 0 2) reporter_ops held_accesses = true ∧
    run_ops held_accesses (generation rising_deltas 0) =
      [(.rx_bytes, (generation rising_deltas 0).rx_bytes),
       (.tx_bytes, (generation rising_deltas 2).tx_bytes),
       (.rx_packets, (generation rising_deltas 2).rx_packets),
       (.tx_packets, (generation rising_deltas 2).tx_packets)] ∧
    ¬ ∃ (g : Nat) (gen : Stat → Nat), (∀ s, gen s = g ∨ gen s = g + 1) ∧
      run_ops held_accesses (generation rising_deltas 0) =
        snapshot_loads.map (fun s => (s, (generation rising_deltas (gen s)).get s)) := by
  refine ⟨by decide, by decide, ?_⟩
  rintro ⟨g, gen, hg, heq⟩
  have hv : run_ops held_accesses (generation rising_deltas 0) =
      [(.rx_bytes, 0), (.tx_bytes, 1000), (.rx_packets, 16), (.tx_packets, 10)] := by decide
  rw [hv] at heq
  simp only [snapshot_loads, List.map, generation_rising, rising_deltas, Quad.get,
    List.cons.injEq, Prod.mk.injEq, true_and, and_true] at heq
  obtain ⟨h1, h2, _, _⟩ := heq
  have a1 := hg .rx_bytes
  have a2 := hg .tx_bytes
  omega

/-- C9 as amended: take the atomic stores of the `k` sampling iterations
`g + 1, .., g + k` (any `k`, also 0) and the four atomic loads of one reporter
cycle, executed in any interleaving `zs` that keeps each thread's own order,
on a snapshot that holds generation `g` (the initial zeros when `g = 0`).
Then the loads return, slot by slot, the whole value that generation
`gen slot` holds for the slot, with every `gen slot` between `g` and `g + k`:
no other value is ever seen, and the four values of the cycle are at most `k`
generations apart - at most one when the stores of a single iteration fall
among the loads (`k = 1`). -/
theorem snapshot_loads_generation_span (deltas : Nat → Quad) (g k : Nat) (zs : List Op)
    (h : is_interleaving (run_stores deltas g k) reporter_ops zs = true) :
    ∃ gen : Stat → Nat, (∀ s, g ≤ gen s ∧ gen s ≤ g + k) ∧ (∀ s t, gen s ≤ gen t + k) ∧
      run_ops zs (generation deltas g) =
        snapshot_loads.map (fun s => (s, (generation deltas (gen s)).get s)) := by
  have key := run_ops_interleaving
    (fun s v => ∃ n, g ≤ n ∧ n ≤ g + k ∧ v = (generation deltas n).get s) zs
    (run_stores deltas g k) reporter_ops (generation deltas g) h
    (by
      intro op hop
      obtain ⟨s, n, h1, h2, h3⟩ := mem_run_stores deltas k g op hop
      refine ⟨s, _, h3, n, by omega, h2, ?_⟩
      have hn : n ≠ 0 := by omega
      simp [generation, hn])
    (by
      intro op hop
      simp only [reporter_ops, snapshot_loads, List.map, List.mem_cons, List.mem_singleton,
        List.mem_nil_iff, or_false] at hop
      rcases hop with hop | hop | hop | hop
      · exact ⟨.rx_bytes, hop⟩
      · exact ⟨.tx_bytes, hop⟩
      · exact ⟨.rx_packets, hop⟩
      · exact ⟨.tx_packets, hop⟩)
    (fun s => ⟨g, Nat.le_refl _, Nat.le_add_right _ _, rfl⟩)
  simp only [reporter_ops, snapshot_loads, List.map] at key
  rcases List.forall₂_cons_left_iff.mp key with ⟨r1, t1, ⟨e1, v1⟩, key1, hz⟩
  rcases List.forall₂_cons_left_iff.mp key1 with ⟨r2, t2, ⟨e2, v2⟩, key2, hz1⟩
  rcases List.forall₂_cons_left_iff.mp key2 with ⟨r3, t3, ⟨e3, v3⟩, key3, hz2⟩
  rcases List.forall₂_cons_left_iff.mp key3 with ⟨r4, t4, ⟨e4, v4⟩, key4, hz3⟩
  have ht4 : t4 = [] := List.forall₂_nil_left_iff.mp key4
  subst ht4 hz3 hz2 hz1
  obtain ⟨s1, w1⟩ := r1
  obtain ⟨s2, w2⟩ := r2
  obtain ⟨s3, w3⟩ := r3
  obtain ⟨s4, w4⟩ := r4
  simp only [Op.load.injEq] at e1 e2 e3 e4
  subst e1 e2 e3 e4
  obtain ⟨n1, ha1, hb1, hv1⟩ := v1
  obtain ⟨n2, ha2, hb2, hv2⟩ := v2
  obtain ⟨n3, ha3, hb3, hv3⟩ := v3
  obtain ⟨n4, ha4, hb4, hv4⟩ := v4
  simp only at hv1 hv2 hv3 hv4
  have hgen : ∀ s : Stat, g ≤ (match s with
      | .rx_bytes => n1
      | .tx_bytes => n2
      | .rx_packets => n3
      | .tx_packets => n4) ∧ (match s with
      | .rx_bytes => n1
      | .tx_bytes => n2
      | .rx_packets => n3
      | .tx_packets => n4) ≤ g + k := by
    intro s
    cases s
    · exact ⟨ha2, hb2⟩
    · exact ⟨ha1, hb1⟩
    · exact ⟨ha4, hb4⟩
    · exact ⟨ha3, hb3⟩
  refine ⟨fun s => match s with
    | .rx_bytes => n1
    | .tx_bytes => n2
    | .rx_packets => n3
    | .tx_packets => n4, hgen, ?_, ?_⟩
  · intro s t
    have hs := hgen s
    have ht := hgen t
    simp only at hs ht ⊢
    omega
  · rw [hz]
    simp only [snapshot_loads, List.map, hv1, hv2, hv3, hv4]

/-- The amended C9 on one interleaving with the stores of the first
iteration alone (`g = 0`, `k = 1`): the cycle loads 0 for rx_bytes and
rx_packets (generation 0) and 500 and 5 for tx_bytes and tx_packets
(generation 1). -/
theorem snapshot_loads_generation_span_witness :
    is_interleaving (run_stores rising_deltas 0 1) reporter_ops mixed_accesses = true ∧
    run_ops mixed_accesses (generation rising_deltas 0) =
      [(.rx_bytes, 0), (.tx_bytes, 500), (.rx_packets, 0), (.tx_packets, 5)] ∧
    ∃ gen : Stat → Nat, (∀ s, 0 ≤ gen s ∧ gen s ≤ 0 + 1) ∧ (∀ s t, gen s ≤ gen t + 1) ∧
      run_ops mixed_accesses (generation rising_deltas 0) =
        snapshot_loads.map (fun s => (s, (generation rising_deltas (gen s)).get s)) :=
  ⟨by decide, by decide,
   snapshot_loads_generation_span rising_deltas 0 1 mixed_accesses (by decide)⟩

end IfaceMonitor
